import Mathlib

/-!
Verification of the text-explainer workflow: a shallow embedding of the
App component (src/unnamed/part_001), the speech service
(src/services/geminiService.ts), and the audio codec, together with
theorems about the workflow state machine, the history log, the playback
controller and the WAV round-trip law.
-/

/-- Workflow states, from src/types.ts (enum AppState). -/
inductive AppState where
  | Idle
  | Analyzing
  | Synthesizing
  | Playing
  | Summarizing
  | Answering
  | Error
  deriving DecidableEq, Repr

/-- External collaborator calls observable during a workflow action. -/
inductive Collab where
  | analyze
  | summarize
  | answer
  | speech
  deriving DecidableEq, Repr

/-- Modelled from the spec: value of one character of the standard base64
alphabet (audioUtils.ts is absent from the sources; spec section 4.1,
decodeBase64PCM, prescribes standard base64 decoding). -/
def b64Val (c : Char) : Option Nat :=
  if 'A' ≤ c ∧ c ≤ 'Z' then some (c.toNat - 65)
  else if 'a' ≤ c ∧ c ≤ 'z' then some (c.toNat - 97 + 26)
  else if '0' ≤ c ∧ c ≤ '9' then some (c.toNat - 48 + 52)
  else if c = '+' then some 62
  else if c = '/' then some 63
  else none

/-- Modelled from the spec: decode a base64 character stream in groups of
four characters, honouring trailing padding; any non-alphabet character or
incorrect padding yields none (DecodeError). -/
def b64Groups : List Char → Option (List Nat)
  | [] => some []
  | c1 :: c2 :: c3 :: c4 :: rest =>
    match b64Val c1, b64Val c2 with
    | some v1, some v2 =>
      let b1 := v1 * 4 + v2 / 16
      if c3 = '=' then
        if c4 = '=' ∧ rest = [] then some [b1] else none
      else
        match b64Val c3 with
        | some v3 =>
          let b2 := v2 % 16 * 16 + v3 / 4
          if c4 = '=' then
            if rest = [] then some [b1, b2] else none
          else
            match b64Val c4 with
            | some v4 =>
              let b3 := v3 % 4 * 64 + v4
              match b64Groups rest with
              | some bs => some (b1 :: b2 :: b3 :: bs)
              | none => none
            | none => none
        | none => none
    | _, _ => none
  | _ => none

/-- Modelled from the spec: decodeBase64PCM (spec section 4.1) performs
standard base64 decoding of a string into a byte sequence, failing on
malformed input. Stands in for audioUtils.decode, absent from src. -/
def decodeBase64PCM (s : String) : Option (List Nat) :=
  b64Groups s.toList

/-- Reassemble a signed little-endian 16-bit integer from two bytes. -/
def int16OfBytes (b0 b1 : Nat) : Int :=
  let u := b0 % 256 + 256 * (b1 % 256)
  if u < 32768 then (u : Int) else (u : Int) - 65536

/-- Modelled from the spec: interpret a byte sequence as little-endian
signed 16-bit integers; fails (none) when the byte length is odd
(spec section 4.1, pcm16ToSamples with channels = 1). -/
def bytesToInt16 : List Nat → Option (List Int)
  | [] => some []
  | [_] => none
  | b0 :: b1 :: rest =>
    match bytesToInt16 rest with
    | some vs => some (int16OfBytes b0 b1 :: vs)
    | none => none

/-- Modelled from the spec: pcm16ToSamples normalizes each 16-bit sample
to the range [-1, 1] by dividing by 32768 (spec section 4.1; the app is
mono, channels = 1, so no de-interleaving occurs). Stands in for
audioUtils.decodeAudioData, absent from src. -/
def pcm16ToSamples (bytes : List Nat) : Option (List ℚ) :=
  match bytesToInt16 bytes with
  | some vs => some (vs.map (fun v : Int => (v : ℚ) / 32768))
  | none => none

/-- Clamp a sample into [-1, 1] (spec section 4.1, encodeWav). -/
def clampSample (q : ℚ) : ℚ := max (-1) (min 1 q)

/-- Round to the nearest integer (ties upward). -/
def roundNearest (q : ℚ) : Int := ⌊q + 1/2⌋

/-- Modelled from the spec: re-quantize one float sample to a signed
16-bit integer: clamp to [-1, 1], scale by 32768, round to nearest, and
saturate to the signed 16-bit range (spec section 4.1, encodeWav). -/
def quantize16 (q : ℚ) : Int :=
  max (-32768) (min 32767 (roundNearest (clampSample q * 32768)))

/-- Serialize a signed 16-bit integer as two little-endian bytes
(two's complement). -/
def int16ToBytes (v : Int) : List Nat :=
  let u := (v % 65536).toNat
  [u % 256, u / 256]

/-- Little-endian 16-bit serialization of a natural number. -/
def u16le (n : Nat) : List Nat := [n % 256, n / 256 % 256]

/-- Little-endian 32-bit serialization of a natural number. -/
def u32le (n : Nat) : List Nat :=
  [n % 256, n / 256 % 256, n / 65536 % 256, n / 16777216 % 256]

/-- Modelled from the spec: the canonical 44-byte RIFF/WAVE header for
16-bit mono PCM at 24000 Hz (spec section 4.1, encodeWav): RIFF tag,
chunk size, WAVE tag, fmt chunk (PCM format 1, 1 channel, rate 24000,
byte rate 48000, block align 2, 16 bits), data tag, data size. -/
def wavHeader (numSamples : Nat) : List Nat :=
  [82, 73, 70, 70] ++ u32le (36 + 2 * numSamples) ++ [87, 65, 86, 69] ++
  [102, 109, 116, 32] ++ u32le 16 ++ u16le 1 ++ u16le 1 ++
  u32le 24000 ++ u32le 48000 ++ u16le 2 ++ u16le 16 ++
  [100, 97, 116, 97] ++ u32le (2 * numSamples)

/-- Re-quantized little-endian PCM data bytes of a sample list. -/
def pcmBytes : List ℚ → List Nat
  | [] => []
  | q :: rest => int16ToBytes (quantize16 q) ++ pcmBytes rest

/-- Modelled from the spec: encodeWav produces the 44-byte header followed
by the re-quantized sample data (spec section 4.1). Stands in for
audioUtils.audioBufferToWav, absent from src. -/
def encodeWav (samples : List ℚ) : List Nat :=
  wavHeader samples.length ++ pcmBytes samples

/-- A standard strict WAV reader for the canonical container: checks the
44-byte header and parses the remaining bytes as little-endian signed
16-bit samples. -/
def decodeWavSamples (bs : List Nat) : Option (List Int) :=
  let data := bs.drop 44
  if bs.take 44 = wavHeader (data.length / 2) then bytesToInt16 data
  else none

/-- The JS validation check !text.trim(): true exactly when the string
trims to empty, that is, when every character is whitespace. Stated over
the character list so that it evaluates by kernel reduction. -/
def isBlank (s : String) : Bool := s.data.all Char.isWhitespace

/-- Component state of the App (src/unnamed/part_001): the useState
hooks, the audio-graph refs (audioContextRef, gainNodeRef,
audioSourceRef), and the value last applied to the gain node. The live
source is represented by its playback-rate value; the gain node by a
presence flag plus its current gain value. -/
structure AppComp where
  inputText : String
  status : AppState
  resultContent : String
  resultTitle : String
  errorMessage : String
  question : String
  qaHistory : List (String × String)
  history : List String
  playbackRate : ℚ
  volume : ℚ
  feedbackRating : Nat
  feedbackText : String
  feedbackSubmitted : Bool
  audioBuffer : Option (List ℚ)
  audioSource : Option ℚ
  hasAudioContext : Bool
  hasGainNode : Bool
  gainValue : ℚ
  deriving DecidableEq, Repr

/-- The initial component state (the useState initializers of
src/unnamed/part_001; a fresh GainNode has gain 1). -/
def initState : AppComp where
  inputText := ""
  status := AppState.Idle
  resultContent := ""
  resultTitle := ""
  errorMessage := ""
  question := ""
  qaHistory := []
  history := []
  playbackRate := 1
  volume := 1
  feedbackRating := 0
  feedbackText := ""
  feedbackSubmitted := false
  audioBuffer := none
  audioSource := none
  hasAudioContext := false
  hasGainNode := false
  gainValue := 1

/-- stopPlayback (src/unnamed/part_001 lines 43-52): if a source is live,
stop, disconnect and drop it; then, only if the status is Playing, set it
to Idle. Returns the new state and the emitted status updates. -/
def stopPlayback (s : AppComp) : AppComp × List AppState :=
  let s1 :=
    match s.audioSource with
    | some _ => { s with audioSource := none }
    | none => s
  if s.status = AppState.Playing then
    ({ s1 with status := AppState.Idle }, [AppState.Idle])
  else (s1, [])

/-- addToHistory (src/unnamed/part_001 lines 54-58): insert the text at
the front, drop any identical prior entry, and keep the first 20 entries.
The returned list is both the new state and the persisted value. -/
def addToHistory (text : String) (history : List String) : List String :=
  (text :: history.filter (fun item => item ≠ text)).take 20

/-- The onended callback installed on the source
(src/unnamed/part_001 lines 108-111): set status to Idle and clear the
source ref. A total function: it never throws. -/
def onendedHandler (s : AppComp) : AppComp :=
  { s with status := AppState.Idle, audioSource := none }

/-- generateSpeech (src/services/geminiService.ts lines 84-108), as a
function of the API outcome: an error, or a response whose optional
inlineData payload may be missing; a missing or empty payload trips the
falsy check on line 100, whose throw is caught by the surrounding catch
and replaced by the generic message. -/
def generateSpeech (api : Except String (Option String)) :
    Except String String :=
  match api with
  | Except.error _ =>
    Except.error "Failed to generate speech. The model may have returned an error."
  | Except.ok none =>
    Except.error "Failed to generate speech. The model may have returned an error."
  | Except.ok (some b64) =>
    if b64 = "" then
      Except.error "Failed to generate speech. The model may have returned an error."
    else Except.ok b64

/-- The synchronous prelude of handleProcessText after validation passes
(src/unnamed/part_001 lines 67-77): stop playback, set Analyzing, clear
the result, error, QA log, audio buffer and feedback fields, and record
the input in the history. -/
def processPrelude (s : AppComp) : AppComp × List AppState :=
  let p := stopPlayback s
  let s2 := { p.1 with
    status := AppState.Analyzing
    resultContent := ""
    resultTitle := ""
    errorMessage := ""
    qaHistory := []
    audioBuffer := none
    feedbackSubmitted := false
    feedbackRating := 0
    feedbackText := ""
    history := addToHistory p.1.inputText p.1.history }
  (s2, p.2 ++ [AppState.Analyzing])

/-- handleProcessText (src/unnamed/part_001 lines 60-122), as a function
of the analysis outcome and the speech API outcome. Returns the final
state, the emitted status updates in order, and the collaborator calls
made. The base64 decode and PCM decode steps stand in for
audioUtils.decode and audioUtils.decodeAudioData (absent from src,
modelled from the spec); their failure is caught like any other error. -/
def handleProcessText (analyzeRes : Except String String)
    (speechApi : Except String (Option String)) (s : AppComp) :
    AppComp × List AppState × List Collab :=
  if isBlank s.inputText then
    ({ s with errorMessage := "لطفاً برای تحلیل، متنی را وارد کنید."
              status := AppState.Error }, [AppState.Error], [])
  else
    let p := processPrelude s
    match analyzeRes with
    | Except.error msg =>
      ({ p.1 with errorMessage := msg, status := AppState.Error },
       p.2 ++ [AppState.Error], [Collab.analyze])
    | Except.ok script =>
      let s2 := { p.1 with
        resultContent := script
        resultTitle := "اسکریپت تولید شده"
        status := AppState.Synthesizing }
      let t2 := p.2 ++ [AppState.Synthesizing]
      match generateSpeech speechApi with
      | Except.error msg =>
        ({ s2 with errorMessage := msg, status := AppState.Error },
         t2 ++ [AppState.Error], [Collab.analyze, Collab.speech])
      | Except.ok b64 =>
        let s3 := { s2 with
          hasAudioContext := true
          hasGainNode := true
          gainValue := if s2.hasGainNode then s2.gainValue else 1 }
        match decodeBase64PCM b64 with
        | none =>
          ({ s3 with errorMessage := "DecodeError", status := AppState.Error },
           t2 ++ [AppState.Error], [Collab.analyze, Collab.speech])
        | some bytes =>
          match pcm16ToSamples bytes with
          | none =>
            ({ s3 with errorMessage := "DecodeError", status := AppState.Error },
             t2 ++ [AppState.Error], [Collab.analyze, Collab.speech])
          | some samples =>
            ({ s3 with
                audioBuffer := some samples
                gainValue := s3.volume
                audioSource := some s3.playbackRate
                status := AppState.Playing },
             t2 ++ [AppState.Playing], [Collab.analyze, Collab.speech])

/-- The synchronous prelude of handleSummarizeText after validation
passes (src/unnamed/part_001 lines 131-137): stop playback, set
Summarizing, clear the result, error and QA log, and record the input in
the history. Note: the audio buffer is not cleared here. -/
def summarizePrelude (s : AppComp) : AppComp × List AppState :=
  let p := stopPlayback s
  let s2 := { p.1 with
    status := AppState.Summarizing
    resultContent := ""
    resultTitle := ""
    errorMessage := ""
    qaHistory := []
    history := addToHistory p.1.inputText p.1.history }
  (s2, p.2 ++ [AppState.Summarizing])

/-- handleSummarizeText (src/unnamed/part_001 lines 124-150), as a
function of the summarize outcome. -/
def handleSummarizeText (summarizeRes : Except String String)
    (s : AppComp) : AppComp × List AppState × List Collab :=
  if isBlank s.inputText then
    ({ s with errorMessage := "لطفاً برای خلاصه‌سازی، متنی را وارد کنید."
              status := AppState.Error }, [AppState.Error], [])
  else
    let p := summarizePrelude s
    match summarizeRes with
    | Except.ok summary =>
      ({ p.1 with resultContent := summary, resultTitle := "خلاصه"
                  status := AppState.Idle },
       p.2 ++ [AppState.Idle], [Collab.summarize])
    | Except.error msg =>
      ({ p.1 with errorMessage := msg, status := AppState.Error },
       p.2 ++ [AppState.Error], [Collab.summarize])

/-- handleAskQuestion (src/unnamed/part_001 lines 152-169), as a function
of the answer outcome. An empty or whitespace-only question returns
without any state change or collaborator call; on success the pair is
appended to the QA log and the question field cleared; on failure both
are left unchanged and the status becomes Error. -/
def handleAskQuestion (answerRes : Except String String) (s : AppComp) :
    AppComp × List AppState × List Collab :=
  if isBlank s.question then (s, [], [])
  else
    let s1 := { s with status := AppState.Answering, errorMessage := "" }
    match answerRes with
    | Except.ok ans =>
      ({ s1 with qaHistory := s1.qaHistory ++ [(s1.question, ans)]
                 question := ""
                 status := AppState.Idle },
       [AppState.Answering, AppState.Idle], [Collab.answer])
    | Except.error msg =>
      ({ s1 with errorMessage := msg, status := AppState.Error },
       [AppState.Answering, AppState.Error], [Collab.answer])

/-- handleVolumeChange (src/unnamed/part_001 lines 195-201): store the
new volume and, when the gain node and audio context exist, apply the
value to the gain node unchanged. -/
def handleVolumeChange (v : ℚ) (s : AppComp) : AppComp :=
  let s1 := { s with volume := v }
  if s1.hasGainNode && s1.hasAudioContext then { s1 with gainValue := v }
  else s1

/-- handlePlaybackRateChange (src/unnamed/part_001 lines 203-209): store
the new rate and, when a source is live, apply the value to it
unchanged. -/
def handlePlaybackRateChange (v : ℚ) (s : AppComp) : AppComp :=
  let s1 := { s with playbackRate := v }
  match s1.audioSource with
  | some _ => { s1 with audioSource := some v }
  | none => s1

/-- Folding a list of submissions through the history log, oldest
first. -/
def recordAll (l : List String) : List String :=
  l.foldl (fun h t => addToHistory t h) []

/-- A state with a live playback session, used to instantiate playback
theorems. -/
def playingState : AppComp :=
  { initState with status := AppState.Playing, audioSource := some 1 }

/-- A state ready for a valid analyze or summarize submission. -/
def loadedState : AppComp :=
  { initState with inputText := "The water cycle" }

/-- A state whose audio graph is fully initialized, with a live source at
rate 1. -/
def sliderState : AppComp :=
  { initState with hasGainNode := true, hasAudioContext := true
                   audioSource := some 1 }

/-- Twenty distinct submissions, used to instantiate the history
theorem. -/
def histEntries : List String :=
  ["s01", "s02", "s03", "s04", "s05", "s06", "s07", "s08", "s09", "s10",
   "s11", "s12", "s13", "s14", "s15", "s16", "s17", "s18", "s19", "s20"]

theorem stopPlayback_eq (s : AppComp) :
    stopPlayback s =
      ({ s with audioSource := none
                status := if s.status = AppState.Playing then AppState.Idle
                          else s.status },
       if s.status = AppState.Playing then [AppState.Idle] else []) := by
  unfold stopPlayback
  cases s with
  | mk i st rc rt em q qa h pr v fr ft fs ab as hac hgn gv =>
    cases as <;> by_cases hp : st = AppState.Playing <;> simp [hp]

/-- C3: natural completion of a playback session sets the workflow state
to Idle (reported once: the handler is idempotent), and after an explicit
stop the completion callback of the torn-down session leaves the state
exactly as the stop left it — no second Idle transition — and, being a
total function, never throws. -/
theorem c3_completion_once_and_stale_stop (s : AppComp)
    (h : s.status = AppState.Playing) :
    (onendedHandler s).status = AppState.Idle ∧
    onendedHandler (onendedHandler s) = onendedHandler s ∧
    (stopPlayback s).1.status = AppState.Idle ∧
    onendedHandler (stopPlayback s).1 = (stopPlayback s).1 := by
  rw [stopPlayback_eq]
  simp [onendedHandler, h]

theorem c3_witness :
    playingState.status = AppState.Playing ∧
    ((onendedHandler playingState).status = AppState.Idle ∧
     onendedHandler (onendedHandler playingState) = onendedHandler playingState ∧
     (stopPlayback playingState).1.status = AppState.Idle ∧
     onendedHandler (stopPlayback playingState).1 = (stopPlayback playingState).1) :=
  ⟨rfl, c3_completion_once_and_stale_stop playingState rfl⟩

/-- C4: for every analyze or summarize submission that passes validation,
the synchronous prelude of the handler stops any active playback (the
source ref is cleared and the status leaves Playing) before the action's
asynchronous work begins, and clears the question/answer exchange log. -/
theorem c4_stop_before_restart (s : AppComp) (h : isBlank s.inputText = false) :
    (processPrelude s).1.audioSource = none ∧
    (processPrelude s).1.qaHistory = [] ∧
    (processPrelude s).1.status = AppState.Analyzing ∧
    (summarizePrelude s).1.audioSource = none ∧
    (summarizePrelude s).1.qaHistory = [] ∧
    (summarizePrelude s).1.status = AppState.Summarizing := by
  rw [processPrelude, summarizePrelude, stopPlayback_eq]
  simp

theorem c4_witness :
    isBlank loadedState.inputText = false ∧
    ((processPrelude loadedState).1.audioSource = none ∧
     (processPrelude loadedState).1.qaHistory = [] ∧
     (processPrelude loadedState).1.status = AppState.Analyzing ∧
     (summarizePrelude loadedState).1.audioSource = none ∧
     (summarizePrelude loadedState).1.qaHistory = [] ∧
     (summarizePrelude loadedState).1.status = AppState.Summarizing) :=
  ⟨by decide, c4_stop_before_restart loadedState (by decide)⟩

/-- C2 as stated is false: an answer submission whose question is
whitespace-only does not transition to Error — handleAskQuestion returns
with the state unchanged (here still Idle). -/
theorem c2_counterexample :
    (handleAskQuestion (Except.ok "answer")
        { initState with question := " " }).1.status = AppState.Idle ∧
    AppState.Idle ≠ AppState.Error := by
  exact ⟨by decide, by decide⟩

/-- C2 amended: analyze and summarize submissions with empty or
whitespace-only input transition directly to Error and invoke no
collaborator; an answer submission with an empty or whitespace-only
question also invokes no collaborator, but leaves the state entirely
unchanged instead of transitioning to Error. -/
theorem c2_empty_input_validation (s : AppComp)
    (a : Except String String) (sp : Except String (Option String))
    (r q : Except String String)
    (hin : isBlank s.inputText = true) (hq : isBlank s.question = true) :
    (handleProcessText a sp s).1.status = AppState.Error ∧
    (handleProcessText a sp s).2.1 = [AppState.Error] ∧
    (handleProcessText a sp s).2.2 = [] ∧
    (handleSummarizeText r s).1.status = AppState.Error ∧
    (handleSummarizeText r s).2.1 = [AppState.Error] ∧
    (handleSummarizeText r s).2.2 = [] ∧
    handleAskQuestion q s = (s, [], []) := by
  simp [handleProcessText, handleSummarizeText, handleAskQuestion, hin, hq]

theorem c2_empty_input_validation_witness :
    (isBlank initState.inputText = true ∧ isBlank initState.question = true) ∧
    ((handleProcessText (Except.ok "S") (Except.ok (some "AAA=")) initState).1.status
        = AppState.Error ∧
     (handleProcessText (Except.ok "S") (Except.ok (some "AAA=")) initState).2.1
        = [AppState.Error] ∧
     (handleProcessText (Except.ok "S") (Except.ok (some "AAA=")) initState).2.2 = [] ∧
     (handleSummarizeText (Except.ok "T") initState).1.status = AppState.Error ∧
     (handleSummarizeText (Except.ok "T") initState).2.1 = [AppState.Error] ∧
     (handleSummarizeText (Except.ok "T") initState).2.2 = [] ∧
     handleAskQuestion (Except.ok "A") initState = (initState, [], [])) :=
  ⟨⟨by decide, by decide⟩,
   c2_empty_input_validation initState (Except.ok "S") (Except.ok (some "AAA="))
     (Except.ok "T") (Except.ok "A") (by decide) (by decide)⟩

/-- C10: when an answer submission's external call fails, the QA log and
the pending question are left unchanged and the workflow moves to Error;
the pair is appended and the question cleared only on success. -/
theorem c10_answer_failure_preserves_log (s : AppComp) (msg ans : String)
    (h : isBlank s.question = false) :
    (handleAskQuestion (Except.error msg) s).1.qaHistory = s.qaHistory ∧
    (handleAskQuestion (Except.error msg) s).1.question = s.question ∧
    (handleAskQuestion (Except.error msg) s).1.status = AppState.Error ∧
    (handleAskQuestion (Except.ok ans) s).1.qaHistory
      = s.qaHistory ++ [(s.question, ans)] ∧
    (handleAskQuestion (Except.ok ans) s).1.question = "" ∧
    (handleAskQuestion (Except.ok ans) s).1.status = AppState.Idle := by
  simp [handleAskQuestion, h]

theorem c10_witness :
    isBlank ({ initState with question := "why" } : AppComp).question = false ∧
    ((handleAskQuestion (Except.error "boom") { initState with question := "why" }).1.qaHistory
        = ({ initState with question := "why" } : AppComp).qaHistory ∧
     (handleAskQuestion (Except.error "boom") { initState with question := "why" }).1.question
        = ({ initState with question := "why" } : AppComp).question ∧
     (handleAskQuestion (Except.error "boom") { initState with question := "why" }).1.status
        = AppState.Error ∧
     (handleAskQuestion (Except.ok "because") { initState with question := "why" }).1.qaHistory
        = ({ initState with question := "why" } : AppComp).qaHistory
            ++ [(({ initState with question := "why" } : AppComp).question, "because")] ∧
     (handleAskQuestion (Except.ok "because") { initState with question := "why" }).1.question
        = "" ∧
     (handleAskQuestion (Except.ok "because") { initState with question := "why" }).1.status
        = AppState.Idle) :=
  ⟨by decide,
   c10_answer_failure_preserves_log { initState with question := "why" }
     "boom" "because" (by decide)⟩

/-- C8 as stated is false: the handlers apply the raw value to the audio
stage with no clamping — a volume of 2 is applied to the gain node even
though it lies outside [0, 1], and a rate of 3 is applied to the live
source even though it lies outside [0.5, 2]. -/
theorem c8_counterexample :
    (handleVolumeChange 2
        { initState with hasGainNode := true, hasAudioContext := true }).gainValue
      = 2 ∧
    ¬ ((2 : ℚ) ≤ 1) ∧
    (handlePlaybackRateChange 3
        { initState with audioSource := some 1 }).audioSource = some 3 ∧
    ¬ ((3 : ℚ) ≤ 2) := by
  refine ⟨by decide, by norm_num, by decide, by norm_num⟩

/-- C8 amended: the gain and playback-rate handlers apply the incoming
value to the audio stage verbatim, with no clamping; range restriction
comes only from the sliders (min 0 max 1 for volume, min 0.5 max 2 for
rate), so a value within the slider's range is applied unchanged and
therefore lies within the valid range. -/
theorem c8_values_applied_verbatim (v : ℚ) (s : AppComp) (r : ℚ)
    (hg : s.hasGainNode = true) (hc : s.hasAudioContext = true)
    (hs : s.audioSource = some r) :
    (handleVolumeChange v s).gainValue = v ∧
    (handlePlaybackRateChange v s).audioSource = some v ∧
    (0 ≤ v → v ≤ 1 →
      0 ≤ (handleVolumeChange v s).gainValue ∧
      (handleVolumeChange v s).gainValue ≤ 1) ∧
    (1/2 ≤ v → v ≤ 2 →
      ∀ w, (handlePlaybackRateChange v s).audioSource = some w →
        1/2 ≤ w ∧ w ≤ 2) := by
  simp [handleVolumeChange, handlePlaybackRateChange, hg, hc, hs]
  exact ⟨fun h1 h2 => ⟨h1, h2⟩, fun h1 h2 => ⟨h1, h2⟩⟩

theorem c8_values_applied_verbatim_witness :
    (sliderState.hasGainNode = true ∧ sliderState.hasAudioContext = true ∧
     sliderState.audioSource = some 1) ∧
    ((handleVolumeChange (1/2) sliderState).gainValue = 1/2 ∧
     (handlePlaybackRateChange (1/2) sliderState).audioSource = some (1/2) ∧
     (0 ≤ (1 : ℚ)/2 → (1 : ℚ)/2 ≤ 1 →
       0 ≤ (handleVolumeChange (1/2) sliderState).gainValue ∧
       (handleVolumeChange (1/2) sliderState).gainValue ≤ 1) ∧
     (1/2 ≤ (1 : ℚ)/2 → (1 : ℚ)/2 ≤ 2 →
       ∀ w, (handlePlaybackRateChange (1/2) sliderState).audioSource = some w →
         1/2 ≤ w ∧ w ≤ 2)) :=
  ⟨⟨rfl, rfl, rfl⟩, c8_values_applied_verbatim (1/2) sliderState 1 rfl rfl rfl⟩

/-- C9 as stated is false: when a summarize action starts, the previously
held decoded audio buffer is not discarded — it survives the whole
summarize handler. -/
theorem c9_counterexample :
    (handleSummarizeText (Except.ok "summary")
        { initState with inputText := "t", audioBuffer := some [0] }).1.audioBuffer
      = some [0] ∧
    some [(0 : ℚ)] ≠ (none : Option (List ℚ)) := by
  exact ⟨by decide, by simp⟩

/-- C9 amended: when an analyze action starts (passing validation) the
previously held decoded audio buffer is discarded, but when a summarize
action starts the buffer is left in place, so stale decoded audio from an
earlier synthesis remains available after a summarize. -/
theorem c9_buffer_lifecycle (s : AppComp) (h : isBlank s.inputText = false) :
    (processPrelude s).1.audioBuffer = none ∧
    (summarizePrelude s).1.audioBuffer = s.audioBuffer := by
  rw [processPrelude, summarizePrelude, stopPlayback_eq]
  simp

theorem c9_buffer_lifecycle_witness :
    isBlank ({ loadedState with audioBuffer := some [0] } : AppComp).inputText = false ∧
    ((processPrelude { loadedState with audioBuffer := some [0] }).1.audioBuffer = none ∧
     (summarizePrelude { loadedState with audioBuffer := some [0] }).1.audioBuffer
       = ({ loadedState with audioBuffer := some [0] } : AppComp).audioBuffer) :=
  ⟨by decide,
   c9_buffer_lifecycle { loadedState with audioBuffer := some [0] } (by decide)⟩

/-- C1: starting from Idle with non-empty input, when the analysis call
succeeds with a script, the speech call succeeds with a non-empty base64
payload, and both decoding steps succeed, the observed status sequence is
exactly Idle, Analyzing, Synthesizing, Playing; natural completion of the
resulting playback then yields Idle. -/
theorem c1_success_trace (s : AppComp) (script b64 : String)
    (bytes : List Nat) (samples : List ℚ)
    (h0 : s.status = AppState.Idle)
    (h1 : isBlank s.inputText = false)
    (hb : b64 ≠ "")
    (hd : decodeBase64PCM b64 = some bytes)
    (hp : pcm16ToSamples bytes = some samples) :
    s.status :: (handleProcessText (Except.ok script) (Except.ok (some b64)) s).2.1
      = [AppState.Idle, AppState.Analyzing, AppState.Synthesizing,
         AppState.Playing] ∧
    (handleProcessText (Except.ok script) (Except.ok (some b64)) s).1.status
      = AppState.Playing ∧
    (onendedHandler
        (handleProcessText (Except.ok script) (Except.ok (some b64)) s).1).status
      = AppState.Idle := by
  simp [handleProcessText, processPrelude, stopPlayback_eq, generateSpeech,
        onendedHandler, h0, h1, hb, hd, hp]

theorem c1_success_trace_witness :
    (loadedState.status = AppState.Idle ∧
     isBlank loadedState.inputText = false ∧
     "AAA=" ≠ "" ∧
     decodeBase64PCM "AAA=" = some [0, 0] ∧
     pcm16ToSamples [0, 0] = some [0]) ∧
    (loadedState.status ::
        (handleProcessText (Except.ok "S") (Except.ok (some "AAA=")) loadedState).2.1
      = [AppState.Idle, AppState.Analyzing, AppState.Synthesizing,
         AppState.Playing] ∧
     (handleProcessText (Except.ok "S") (Except.ok (some "AAA=")) loadedState).1.status
      = AppState.Playing ∧
     (onendedHandler
        (handleProcessText (Except.ok "S") (Except.ok (some "AAA=")) loadedState).1).status
      = AppState.Idle) :=
  ⟨⟨rfl, by decide, by decide, by decide,
    by simp [pcm16ToSamples, bytesToInt16, int16OfBytes]⟩,
   c1_success_trace loadedState "S" "AAA=" [0, 0] [0] rfl (by decide) (by decide)
     (by decide) (by simp [pcm16ToSamples, bytesToInt16, int16OfBytes])⟩

/-- C5: starting from Idle with non-empty input, when the analysis call
succeeds but the speech call returns an empty or missing audio payload,
the observed status sequence is exactly Idle, Analyzing, Synthesizing,
Error, and the script produced during Analyzing remains in the result
content rather than being discarded. -/
theorem c5_empty_audio_payload (s : AppComp) (script : String)
    (payload : Option String)
    (h0 : s.status = AppState.Idle)
    (h1 : isBlank s.inputText = false)
    (hpay : payload = none ∨ payload = some "") :
    s.status :: (handleProcessText (Except.ok script) (Except.ok payload) s).2.1
      = [AppState.Idle, AppState.Analyzing, AppState.Synthesizing,
         AppState.Error] ∧
    (handleProcessText (Except.ok script) (Except.ok payload) s).1.status
      = AppState.Error ∧
    (handleProcessText (Except.ok script) (Except.ok payload) s).1.resultContent
      = script := by
  rcases hpay with h | h <;> subst h <;>
    simp [handleProcessText, processPrelude, stopPlayback_eq, generateSpeech,
          h0, h1]

theorem c5_empty_audio_payload_witness :
    (loadedState.status = AppState.Idle ∧
     isBlank loadedState.inputText = false ∧
     ((none : Option String) = none ∨ (none : Option String) = some "")) ∧
    (loadedState.status ::
        (handleProcessText (Except.ok "S") (Except.ok none) loadedState).2.1
      = [AppState.Idle, AppState.Analyzing, AppState.Synthesizing,
         AppState.Error] ∧
     (handleProcessText (Except.ok "S") (Except.ok none) loadedState).1.status
      = AppState.Error ∧
     (handleProcessText (Except.ok "S") (Except.ok none) loadedState).1.resultContent
      = "S") :=
  ⟨⟨rfl, by decide, Or.inl rfl⟩,
   c5_empty_audio_payload loadedState "S" none rfl (by decide) (Or.inl rfl)⟩

theorem addToHistory_cons (t : String) (h : List String) :
    addToHistory t h = t :: (h.filter (fun item => item ≠ t)).take 19 :=
  rfl

theorem filter_take_filter (p : String → Bool) (l : List String) (n : Nat) :
    ((l.filter p).take n).filter p = (l.filter p).take n := by
  apply List.filter_eq_self.mpr
  intro a ha
  exact List.of_mem_filter (List.mem_of_mem_take ha)

theorem take_cons_take (t : String) (l : List String) (n : Nat) :
    (t :: l.take n).take n = (t :: l).take n := by
  cases n with
  | zero => rfl
  | succ m =>
    simp only [List.take_succ_cons, List.take_take]
    rw [min_eq_left (Nat.le_succ m)]

theorem recordAll_nodup (l : List String) (hnd : l.Nodup) :
    recordAll l = l.reverse.take 20 := by
  induction l using List.reverseRecOn with
  | nil => rfl
  | append_singleton l a ih =>
    obtain ⟨h1, -, hdisj⟩ := List.nodup_append.mp hnd
    have h2 : a ∉ l := fun hal => hdisj hal (by simp)
    have step : recordAll (l ++ [a]) = addToHistory a (recordAll l) := by
      simp only [recordAll, List.foldl_concat]
    rw [step, ih h1, addToHistory]
    have hfilter :
        (l.reverse.take 20).filter (fun item => item ≠ a) = l.reverse.take 20 := by
      apply List.filter_eq_self.mpr
      intro b hb
      have hbl : b ∈ l := List.mem_reverse.mp (List.mem_of_mem_take hb)
      simp only [ne_eq, decide_eq_true_eq]
      intro heq
      exact h2 (heq ▸ hbl)
    rw [hfilter, List.reverse_append, take_cons_take]
    rfl

/-- C6: record inserts the entry at the front, removes any prior
occurrence of the identical string, and truncates to at most 20 entries;
recording the same string twice in a row changes nothing further, and
recording 21 pairwise-distinct strings yields exactly 20 entries with the
oldest dropped. -/
theorem c6_history_record (t : String) (h : List String) (a : String)
    (l : List String) (hnd : (a :: l).Nodup) (hlen : l.length = 20) :
    (addToHistory t h).head? = some t ∧
    t ∉ (addToHistory t h).tail ∧
    (addToHistory t h).length ≤ 20 ∧
    addToHistory t (addToHistory t h) = addToHistory t h ∧
    (recordAll (a :: l)).length = 20 ∧
    a ∉ recordAll (a :: l) := by
  refine ⟨by rw [addToHistory_cons]; rfl, ?_, ?_, ?_, ?_, ?_⟩
  · rw [addToHistory_cons]
    intro hmem
    simp only [List.tail_cons] at hmem
    have := List.of_mem_filter (List.mem_of_mem_take hmem)
    simp at this
  · simp [addToHistory, List.length_take]
  · rw [addToHistory_cons t h, addToHistory]
    have hdrop :
        (t :: (h.filter (fun item => item ≠ t)).take 19).filter
            (fun item => item ≠ t)
          = ((h.filter (fun item => item ≠ t)).take 19).filter
              (fun item => item ≠ t) := by
      simp [List.filter_cons]
    rw [hdrop, filter_take_filter]
    exact List.take_of_length_le (by simp [List.length_take])
  · rw [recordAll_nodup (a :: l) hnd]
    simp [List.length_take, hlen]
  · have h20 : l.reverse.length = 20 := by simp [hlen]
    rw [recordAll_nodup (a :: l) hnd, List.reverse_cons, ← h20, List.take_left,
      List.mem_reverse]
    exact (List.nodup_cons.mp hnd).1

theorem c6_history_record_witness :
    (("s00" :: histEntries).Nodup ∧ histEntries.length = 20) ∧
    ((addToHistory "x" ["y", "x"]).head? = some "x" ∧
     "x" ∉ (addToHistory "x" ["y", "x"]).tail ∧
     (addToHistory "x" ["y", "x"]).length ≤ 20 ∧
     addToHistory "x" (addToHistory "x" ["y", "x"]) = addToHistory "x" ["y", "x"] ∧
     (recordAll ("s00" :: histEntries)).length = 20 ∧
     "s00" ∉ recordAll ("s00" :: histEntries)) :=
  ⟨⟨by decide, by decide⟩,
   c6_history_record "x" ["y", "x"] "s00" histEntries (by decide) (by decide)⟩

theorem int16OfBytes_range (b0 b1 : Nat) :
    -32768 ≤ int16OfBytes b0 b1 ∧ int16OfBytes b0 b1 ≤ 32767 := by
  unfold int16OfBytes
  have h0 : b0 % 256 < 256 := Nat.mod_lt _ (by omega)
  have h1 : b1 % 256 < 256 := Nat.mod_lt _ (by omega)
  dsimp only
  split <;> omega

theorem bytesToInt16_range : ∀ (bs : List Nat) (vs : List Int),
    bytesToInt16 bs = some vs → ∀ v ∈ vs, -32768 ≤ v ∧ v ≤ 32767
  | [], vs, h => by
    simp only [bytesToInt16, Option.some.injEq] at h
    subst h
    intro v hv
    simp at hv
  | [b], vs, h => by
    simp [bytesToInt16] at h
  | b0 :: b1 :: rest, vs, h => by
    simp only [bytesToInt16] at h
    cases hr : bytesToInt16 rest with
    | none =>
      rw [hr] at h
      simp at h
    | some ws =>
      rw [hr] at h
      simp only [Option.some.injEq] at h
      subst h
      intro v hv
      rcases List.mem_cons.mp hv with rfl | hvw
      · exact int16OfBytes_range b0 b1
      · exact bytesToInt16_range rest ws hr v hvw

theorem quantize16_exact (v : Int) (h1 : -32768 ≤ v) (h2 : v ≤ 32767) :
    quantize16 ((v : ℚ) / 32768) = v := by
  have h32 : (0 : ℚ) < 32768 := by norm_num
  have hvle : (v : ℚ) ≤ 32768 := by
    exact_mod_cast (by omega : v ≤ (32768 : Int))
  have hvge : (-32768 : ℚ) ≤ (v : ℚ) := by exact_mod_cast h1
  have hle : (v : ℚ) / 32768 ≤ 1 := by
    rw [div_le_one h32]
    exact hvle
  have hge : (-1 : ℚ) ≤ (v : ℚ) / 32768 := by
    rw [le_div_iff h32]
    linarith
  have hclamp : clampSample ((v : ℚ) / 32768) = (v : ℚ) / 32768 := by
    unfold clampSample
    rw [min_eq_right hle, max_eq_right hge]
  have hmul : (v : ℚ) / 32768 * 32768 = (v : ℚ) :=
    div_mul_cancel₀ _ (ne_of_gt h32)
  have hround : roundNearest ((v : ℚ)) = v := by
    unfold roundNearest
    apply Int.floor_eq_iff.mpr
    constructor
    · push_cast
      linarith
    · push_cast
      linarith
  unfold quantize16
  rw [hclamp, hmul, hround, min_eq_right h2, max_eq_right h1]

theorem int16OfBytes_toBytes (v : Int) (h1 : -32768 ≤ v) (h2 : v ≤ 32767) :
    int16OfBytes ((v % 65536).toNat % 256) ((v % 65536).toNat / 256) = v := by
  unfold int16OfBytes
  have hnn : 0 ≤ v % 65536 := Int.emod_nonneg v (by norm_num)
  have hlt : v % 65536 < 65536 := Int.emod_lt_of_pos v (by norm_num)
  dsimp only
  split <;> omega

theorem bytesToInt16_pcmBytes : ∀ (vs : List Int),
    (∀ v ∈ vs, -32768 ≤ v ∧ v ≤ 32767) →
    bytesToInt16 (pcmBytes (vs.map (fun v : Int => (v : ℚ) / 32768))) = some vs
  | [], _ => rfl
  | v :: rest, hr => by
    have hv := hr v (List.mem_cons_self v rest)
    have ihr := bytesToInt16_pcmBytes rest
      (fun w hw => hr w (List.mem_cons_of_mem v hw))
    rw [List.map_cons]
    show bytesToInt16 (int16ToBytes (quantize16 ((v : ℚ) / 32768)) ++
        pcmBytes (rest.map (fun v : Int => (v : ℚ) / 32768))) = some (v :: rest)
    rw [quantize16_exact v hv.1 hv.2]
    show bytesToInt16 ((v % 65536).toNat % 256 :: (v % 65536).toNat / 256 ::
        pcmBytes (rest.map (fun v : Int => (v : ℚ) / 32768))) = some (v :: rest)
    simp only [bytesToInt16]
    rw [ihr]
    simp [int16OfBytes_toBytes v hv.1 hv.2]

theorem pcmBytes_length : ∀ (qs : List ℚ),
    (pcmBytes qs).length = 2 * qs.length
  | [] => rfl
  | q :: rest => by
    have h2 : (int16ToBytes (quantize16 q)).length = 2 := rfl
    simp only [pcmBytes, List.length_append, h2, pcmBytes_length rest,
      List.length_cons]
    omega

theorem wavHeader_length (n : Nat) : (wavHeader n).length = 44 := by
  simp [wavHeader, u32le, u16le]

/-- C7: for every valid base64-encoded PCM byte sequence of even byte
length, composing the base64 decode, the PCM-to-samples normalization and
the WAV encoder, then decoding the resulting WAV container, reproduces
the original 16-bit samples within one quantization step (in fact
exactly, so in particular within plus or minus one 16-bit unit). -/
theorem c7_wav_roundtrip (x : String) (bytes : List Nat) (ints : List Int)
    (samples : List ℚ)
    (hdec : decodeBase64PCM x = some bytes)
    (hints : bytesToInt16 bytes = some ints)
    (hsamp : pcm16ToSamples bytes = some samples) :
    ∃ recovered : List Int,
      decodeWavSamples (encodeWav samples) = some recovered ∧
      recovered.length = ints.length ∧
      ∀ i, i < ints.length →
        (recovered.getD i 0 - ints.getD i 0).natAbs ≤ 1 := by
  have hsamp' : samples = ints.map (fun v : Int => (v : ℚ) / 32768) := by
    simp only [pcm16ToSamples, hints, Option.some.injEq] at hsamp
    exact hsamp.symm
  have hrange := bytesToInt16_range bytes ints hints
  have hdata : bytesToInt16 (pcmBytes samples) = some ints := by
    rw [hsamp']
    exact bytesToInt16_pcmBytes ints hrange
  have hslen : samples.length = ints.length := by
    rw [hsamp']
    simp
  have hdlen : (pcmBytes samples).length = 2 * ints.length := by
    rw [pcmBytes_length, hslen]
  have hh : (wavHeader samples.length).length = 44 := wavHeader_length _
  have hdrop : (encodeWav samples).drop 44 = pcmBytes samples := by
    rw [encodeWav, ← hh, List.drop_left]
  have htake : (encodeWav samples).take 44 = wavHeader samples.length := by
    rw [encodeWav, ← hh, List.take_left]
  refine ⟨ints, ?_, rfl, ?_⟩
  · show (if (encodeWav samples).take 44
        = wavHeader (((encodeWav samples).drop 44).length / 2) then
        bytesToInt16 ((encodeWav samples).drop 44)
      else none) = some ints
    rw [hdrop, htake, hdlen, hslen]
    have hdiv : 2 * ints.length / 2 = ints.length := by omega
    rw [hdiv, if_pos rfl]
    exact hdata
  · intro i hi
    simp

theorem c7_wav_roundtrip_witness :
    (decodeBase64PCM "AAD/fw==" = some [0, 0, 255, 127] ∧
     bytesToInt16 [0, 0, 255, 127] = some [0, 32767] ∧
     pcm16ToSamples [0, 0, 255, 127]
       = some (([0, 32767] : List Int).map (fun v : Int => (v : ℚ) / 32768))) ∧
    (∃ recovered : List Int,
      decodeWavSamples
          (encodeWav (([0, 32767] : List Int).map (fun v : Int => (v : ℚ) / 32768)))
        = some recovered ∧
      recovered.length = ([0, 32767] : List Int).length ∧
      ∀ i, i < ([0, 32767] : List Int).length →
        (recovered.getD i 0 - ([0, 32767] : List Int).getD i 0).natAbs ≤ 1) := by
  have h1 : decodeBase64PCM "AAD/fw==" = some [0, 0, 255, 127] := by decide
  have h2 : bytesToInt16 [0, 0, 255, 127] = some [0, 32767] := by decide
  have h3 : pcm16ToSamples [0, 0, 255, 127]
      = some (([0, 32767] : List Int).map (fun v : Int => (v : ℚ) / 32768)) := by
    simp only [pcm16ToSamples, h2]
  exact ⟨⟨h1, h2, h3⟩,
    c7_wav_roundtrip "AAD/fw==" [0, 0, 255, 127] [0, 32767] _ h1 h2 h3⟩
